import Mathlib

/-!
Verification of the dynamic MongoDB connection manager (package database)
and of the Data API update-document builder of the mongodb proxy.

The Go source is embedded shallowly:
  - the machine state of the Client struct becomes a Lean structure; the
    mongo.Client pointer becomes an Option Nat (a handle identifier), the
    stopCleanup channel becomes a Bool flag (channel non-nil means a
    cleanup goroutine is running), and time.Time becomes a Nat counting
    seconds;
  - each method becomes a pure function of the state, parameterized by the
    current time and by the outcome of the external driver calls
    (mongo.Connect, Disconnect), which perform input/output and are
    therefore modelled as explicit inputs;
  - for the concurrency claim, ensureConnection followed by the final read
    of GetConnection is additionally given a fine-grained interleaving
    semantics: every lock-protected region of the Go code is one atomic
    step of a goroutine, and executions are arbitrary interleavings of the
    steps of n goroutines.
-/

/-- ConnectionTimeout is the idle timeout before closing a connection
(5 minutes, counted in seconds). -/
def ConnectionTimeout : Nat := 5 * 60

/-- ConnectionCheckInterval is how often the cleanup goroutine checks for
stale connections (1 minute, counted in seconds). -/
def ConnectionCheckInterval : Nat := 60

/-- Client wraps the MongoDB client with dynamic connection management.
The field client models the mongo.Client pointer (none stands for nil);
lastUsed models the time.Time of last use; stopCleanup models whether the
stopCleanup channel is non-nil, that is, whether a cleanup goroutine is
running. The three mutexes of the struct have no content in the sequential
semantics; they reappear as atomicity and as the creation lock in the
interleaving model further down. -/
structure Client where
  uri : String
  client : Option Nat
  lastUsed : Nat
  stopCleanup : Bool
  deriving Repr, DecidableEq

/-- NewClient creates a new MongoDB client with dynamic connection
management; the connection is established lazily on first use. The Go
function returns the pair of the client pointer and an error; it always
returns a nil error, and the struct literal leaves the zero value in
every field except uri. -/
def NewClient (uri : String) : Client × Option Unit :=
  ({ uri := uri, client := none, lastUsed := 0, stopCleanup := false }, none)

/-- startCleanup starts the cleanup goroutine if not already running:
under cleanupMu, if the stopCleanup channel is nil it is created and the
goroutine is spawned. -/
def startCleanup (c : Client) : Client :=
  if c.stopCleanup then c else { c with stopCleanup := true }

/-- stopCleanupGoroutine stops the cleanup goroutine: under cleanupMu, if
the stopCleanup channel is non-nil it is closed and set back to nil. -/
def stopCleanupGoroutine (c : Client) : Client :=
  if c.stopCleanup then { c with stopCleanup := false } else c

/-- Outcome of one uninterfered run of ensureConnection: the returned
error, the state after the run, whether mongo.Connect was invoked, and
whether the connectionMu creation lock was entered. -/
structure EnsureResult where
  err : Option Unit
  state : Client
  connectInvoked : Bool
  enteredCreationLock : Bool
  deriving Repr, DecidableEq

/-- ensureConnection checks if a connection exists and creates a new one
if needed, here run without interference from other goroutines. The
parameter now is the current time and connect is the outcome of the
mongo.Connect call in case one is made (ok h yields the fresh driver
client h, error reports a connection failure, which the Go code wraps
into a connect error). -/
def ensureConnection (c : Client) (now : Nat) (connect : Except Unit Nat) :
    EnsureResult :=
  -- the creation section under connectionMu, with the double-check after
  -- acquiring the lock
  let slowPath : EnsureResult :=
    if c.client.isSome then
      { err := none, state := { c with lastUsed := now },
        connectInvoked := false, enteredCreationLock := true }
    else
      match connect with
      | .error e =>
          { err := some e, state := c,
            connectInvoked := true, enteredCreationLock := true }
      | .ok h =>
          { err := none,
            state := startCleanup { c with client := some h, lastUsed := now },
            connectInvoked := true, enteredCreationLock := true }
  -- first, check for a valid connection without locking for creation
  if c.client.isSome then
    -- fast path: re-check under mu.Lock, update last used time and return
    if c.client.isSome then
      { err := none, state := { c with lastUsed := now },
        connectInvoked := false, enteredCreationLock := false }
    else slowPath
  else slowPath

/-- GetConnection ensures a valid connection and returns the client
pointer read under mu.RLock; the Bool component reports whether
mongo.Connect was invoked. -/
def GetConnection (c : Client) (now : Nat) (connect : Except Unit Nat) :
    Except Unit (Option Nat) × Client × Bool :=
  let r := ensureConnection c now connect
  match r.err with
  | some e => (.error e, r.state, r.connectInvoked)
  | none => (.ok r.state.client, r.state, r.connectInvoked)

/-- Close closes the MongoDB connection and stops the cleanup goroutine.
The parameter disconnect is the outcome of the Disconnect driver call in
case a connection is present. The Go code returns the Disconnect error
unchanged and never assigns nil to c.client. -/
def Close (c : Client) (disconnect : Except Unit Unit) :
    Except Unit Unit × Client :=
  let c1 := stopCleanupGoroutine c
  match c1.client with
  | some _ => (disconnect, c1)
  | none => (.ok (), c1)

/-- Result of one ticker iteration of the cleanupStaleConnections loop:
the state after the tick, whether the goroutine keeps running, and, when
the stale branch ran, the timeout in seconds installed on the context of
the Disconnect call. -/
structure TickResult where
  state : Client
  keepRunning : Bool
  disconnectTimeout : Option Nat
  deriving Repr, DecidableEq

/-- cleanupStaleConnectionsTick is the body of one ticker iteration of
cleanupStaleConnections, run at time now. The parameter disconnect is the
outcome of the driver Disconnect call; the Go code discards that value.
When the connection is stale it is disconnected under a context carrying
a 2 second timeout, c.client is set to nil, and the goroutine stops
itself through stopCleanupGoroutine and returns. -/
def cleanupStaleConnectionsTick (c : Client) (now : Nat)
    (disconnect : Except Unit Unit) : TickResult :=
  let timeSinceLastUse := now - c.lastUsed
  let hasConnection := c.client.isSome
  if hasConnection ∧ ConnectionTimeout < timeSinceLastUse then
    { state := stopCleanupGoroutine { c with client := none },
      keepRunning := false,
      disconnectTimeout := some 2 }
  else
    { state := c, keepRunning := true, disconnectTimeout := none }

/-- runTicks folds successive ticker iterations of cleanupStaleConnections
over a list of tick times, stopping when the goroutine exits; the driver
Disconnect outcome is irrelevant to the resulting state (the Go code
discards it), so ok () is passed. Ticks only happen while a cleanup
goroutine is running. -/
def runTicks (c : Client) : List Nat → Client
  | [] => c
  | t :: rest =>
    if c.stopCleanup then
      let r := cleanupStaleConnectionsTick c t (.ok ())
      if r.keepRunning then runTicks r.state rest else r.state
    else c

/-- acquireTrace runs a sequence of Acquire calls (ensureConnection), each
given as a pair of the call time and the connect outcome, and records the
lastUsed value observed right after each successful call. -/
def acquireTrace : Client → List (Nat × Except Unit Nat) → List Nat
  | _, [] => []
  | c, (t, k) :: rest =>
    let r := ensureConnection c t k
    match r.err with
    | none => r.state.lastUsed :: acquireTrace r.state rest
    | some _ => acquireTrace r.state rest

/-- BsonValue is the fragment of BSON values the update builder needs:
primitive values (abstracted as strings) and embedded documents, a
document being a list of key-value pairs standing for a bson.M value. -/
inductive BsonValue where
  | prim (s : String)
  | doc (d : List (String × BsonValue))

/-- hasUpdateOperators checks if the update document contains MongoDB
update operators: some key is non-empty and its first byte is the dollar
character. -/
def hasUpdateOperators (update : List (String × BsonValue)) : Bool :=
  update.any fun kv =>
    match kv.1.data with
    | c :: _ => c == '$'
    | [] => false

/-- buildUpdate builds the update document sent by the updateOne and
updateMany actions: a nil update stays nil; after the bson marshal and
unmarshal round trip (the identity on the document model used here), an
update without top-level operators is wrapped in a document with the
single key $set, and otherwise it is returned unchanged. -/
def buildUpdate (update : Option (List (String × BsonValue))) :
    Option (List (String × BsonValue)) :=
  match update with
  | none => none
  | some result =>
    if hasUpdateOperators result then some result
    else some [("$set", BsonValue.doc result)]

/-- startsWithDollar states, on the specification side, that a key begins
with the dollar character. -/
def startsWithDollar (k : String) : Bool :=
  match k.data with
  | c :: _ => c == '$'
  | [] => false

/-- Auxiliary: startCleanup always results in a set flag. -/
theorem startCleanup_eq (c : Client) :
    startCleanup c = { c with stopCleanup := true } := by
  obtain ⟨u, cl, lu, sc⟩ := c
  cases sc <;> simp [startCleanup]

/-- Auxiliary: stopCleanupGoroutine always results in a cleared flag. -/
theorem stopCleanupGoroutine_eq (c : Client) :
    stopCleanupGoroutine c = { c with stopCleanup := false } := by
  obtain ⟨u, cl, lu, sc⟩ := c
  cases sc <;> simp [stopCleanupGoroutine]

/-- Auxiliary: the fast path of ensureConnection. -/
theorem ensureConnection_fast (c : Client) (now : Nat) (k : Except Unit Nat)
    (h : Nat) (hc : c.client = some h) :
    ensureConnection c now k =
      { err := none, state := { c with lastUsed := now },
        connectInvoked := false, enteredCreationLock := false } := by
  simp [ensureConnection, hc]

/-- Auxiliary: the failing slow path of ensureConnection. -/
theorem ensureConnection_fail (c : Client) (now : Nat) (e : Unit)
    (hc : c.client = none) :
    ensureConnection c now (.error e) =
      { err := some e, state := c,
        connectInvoked := true, enteredCreationLock := true } := by
  simp [ensureConnection, hc]

/-- Auxiliary: the successful slow path of ensureConnection. -/
theorem ensureConnection_ok (c : Client) (now : Nat) (h : Nat)
    (hc : c.client = none) :
    ensureConnection c now (.ok h) =
      { err := none,
        state := { c with client := some h, lastUsed := now, stopCleanup := true },
        connectInvoked := true, enteredCreationLock := true } := by
  simp [ensureConnection, hc, startCleanup_eq]

/-- Auxiliary: the state component returned by Close, in both branches. -/
theorem close_snd (c : Client) (d : Except Unit Unit) :
    (Close c d).2 = { c with stopCleanup := false } := by
  cases hcl : c.client <;>
    simp [Close, stopCleanupGoroutine_eq, hcl]

/-- Auxiliary: a successful Acquire writes lastUsed to the call time. -/
theorem ensureConnection_success_lastUsed (c : Client) (t : Nat)
    (k : Except Unit Nat) (hs : (ensureConnection c t k).err = none) :
    (ensureConnection c t k).state.lastUsed = t := by
  cases hc : c.client with
  | some h => rw [ensureConnection_fast c t k h hc]
  | none =>
    cases k with
    | ok h => rw [ensureConnection_ok c t h hc]
    | error e => rw [ensureConnection_fail c t e hc] at hs; exact absurd hs (by simp)

/-- Auxiliary: the recorded lastUsed values of a call sequence form a
sublist of the call times. -/
theorem acquireTrace_sublist (c : Client) (calls : List (Nat × Except Unit Nat)) :
    (acquireTrace c calls).Sublist (calls.map Prod.fst) := by
  induction calls generalizing c with
  | nil => simp [acquireTrace]
  | cons p rest ih =>
    obtain ⟨t, k⟩ := p
    cases herr : (ensureConnection c t k).err with
    | none =>
      have hw := ensureConnection_success_lastUsed c t k herr
      simp only [acquireTrace, herr, List.map_cons, hw]
      exact (ih _).cons₂ t
    | some e =>
      simp only [acquireTrace, herr, List.map_cons]
      exact (ih _).cons t

/-- C9: for every URI string, NewClient returns a manager holding that
URI, no connection, the zero last-use time, no reclamation goroutine, and
a nil error; construction performs no input or output and cannot fail. -/
theorem c9_newClient_never_fails (uri : String) :
    NewClient uri =
      ({ uri := uri, client := none, lastUsed := 0, stopCleanup := false },
        none) := rfl

/-- C7: whenever a connection already exists, Acquire takes the fast
path: it updates lastUsed to the call time and GetConnection returns the
existing handle, with mongo.Connect not invoked and the creation lock
never entered. -/
theorem c7_fast_path (c : Client) (now : Nat) (k : Except Unit Nat)
    (h : Nat) (hc : c.client = some h) :
    ensureConnection c now k =
      { err := none, state := { c with lastUsed := now },
        connectInvoked := false, enteredCreationLock := false } ∧
    GetConnection c now k =
      (.ok (some h), { c with lastUsed := now }, false) := by
  refine ⟨ensureConnection_fast c now k h hc, ?_⟩
  simp [GetConnection, ensureConnection_fast c now k h hc, hc]

/-- Witness for c7_fast_path at a concrete connected manager. -/
theorem c7_fast_path_witness :
    ensureConnection
        { uri := "mongodb", client := some 5, lastUsed := 1, stopCleanup := true }
        9 (.ok 7) =
      { err := none,
        state := { uri := "mongodb", client := some 5, lastUsed := 9,
                   stopCleanup := true },
        connectInvoked := false, enteredCreationLock := false } ∧
    GetConnection
        { uri := "mongodb", client := some 5, lastUsed := 1, stopCleanup := true }
        9 (.ok 7) =
      (.ok (some 5),
        { uri := "mongodb", client := some 5, lastUsed := 9, stopCleanup := true },
        false) :=
  c7_fast_path _ 9 _ 5 rfl

/-- C4: if no connection exists and the connect attempt fails, Acquire
invokes mongo.Connect, propagates the error, and retains no partial
state: the resulting state is exactly the input state, so the handle is
still none, lastUsed is untouched and no cleanup goroutine was started;
the next Acquire enters the creation section again and, when its connect
succeeds with handle h, stores h, refreshes lastUsed and starts the
cleanup goroutine. -/
theorem c4_connect_failure_clean (c : Client) (now now2 : Nat) (e : Unit)
    (h : Nat) (hc : c.client = none) :
    ensureConnection c now (.error e) =
      { err := some e, state := c,
        connectInvoked := true, enteredCreationLock := true } ∧
    ensureConnection c now2 (.ok h) =
      { err := none,
        state := { c with client := some h, lastUsed := now2, stopCleanup := true },
        connectInvoked := true, enteredCreationLock := true } :=
  ⟨ensureConnection_fail c now e hc, ensureConnection_ok c now2 h hc⟩

/-- Witness for c4_connect_failure_clean on a fresh manager. -/
theorem c4_connect_failure_clean_witness :
    ensureConnection (NewClient "mongodb").1 4 (.error ()) =
      { err := some (), state := (NewClient "mongodb").1,
        connectInvoked := true, enteredCreationLock := true } ∧
    ensureConnection (NewClient "mongodb").1 6 (.ok 0) =
      { err := none,
        state := { uri := "mongodb", client := some 0, lastUsed := 6,
                   stopCleanup := true },
        connectInvoked := true, enteredCreationLock := true } :=
  c4_connect_failure_clean (NewClient "mongodb").1 4 6 () 0 rfl

/-- C2: evaluation of Close at a connected manager: the Disconnect
outcome is returned, but the handle is NOT cleared, because Close never
assigns nil to c.client; a second Close therefore takes the connected
branch again and returns the outcome of a second Disconnect call on the
already disconnected driver client instead of a guaranteed success. -/
theorem c2_close_keeps_handle (c : Client) (h : Nat)
    (d d2 : Except Unit Unit) (hc : c.client = some h) :
    (Close c d).1 = d ∧
    ((Close c d).2).client = some h ∧
    Close (Close c d).2 d2 = (d2, (Close c d).2) := by
  have h1 : (Close c d).2 = { c with stopCleanup := false } := close_snd c d
  have h2 : (Close c d).1 = d := by simp [Close, stopCleanupGoroutine_eq, hc]
  refine ⟨h2, by simp [h1, hc], ?_⟩
  rw [h1]
  simp [Close, stopCleanupGoroutine_eq, hc]

/-- Witness for c2_close_keeps_handle: close a connected manager whose
first Disconnect succeeds, then close it again. -/
theorem c2_close_keeps_handle_witness :
    (Close { uri := "mongodb", client := some 0, lastUsed := 2, stopCleanup := true }
        (.ok ())).1 = .ok () ∧
    ((Close { uri := "mongodb", client := some 0, lastUsed := 2, stopCleanup := true }
        (.ok ())).2).client = some 0 ∧
    Close
        (Close { uri := "mongodb", client := some 0, lastUsed := 2, stopCleanup := true }
          (.ok ())).2 (.error ()) =
      (.error (),
        (Close { uri := "mongodb", client := some 0, lastUsed := 2, stopCleanup := true }
          (.ok ())).2) :=
  c2_close_keeps_handle _ 0 _ _ rfl

/-- C3: Acquire after Close performs no fresh connect: because Close
leaves the handle in place, the subsequent GetConnection takes the fast
path and returns the old, already disconnected handle, with mongo.Connect
not invoked. -/
theorem c3_no_reconnect_after_close (c : Client) (h : Nat) (now : Nat)
    (dis : Except Unit Unit) (k : Except Unit Nat) (hc : c.client = some h) :
    GetConnection (Close c dis).2 now k =
      (.ok (some h), { c with lastUsed := now, stopCleanup := false }, false) := by
  rw [close_snd c dis]
  have hc2 : ({ c with stopCleanup := false } : Client).client = some h := by
    simp [hc]
  simp [GetConnection, ensureConnection_fast _ now k h hc2, hc2]

/-- Witness for c3_no_reconnect_after_close: connect, close, acquire. -/
theorem c3_no_reconnect_after_close_witness :
    GetConnection
        (Close { uri := "mongodb", client := some 0, lastUsed := 2, stopCleanup := true }
          (.ok ())).2 7 (.ok 1) =
      (.ok (some 0),
        { uri := "mongodb", client := some 0, lastUsed := 7, stopCleanup := false },
        false) :=
  c3_no_reconnect_after_close _ 0 7 _ _ rfl

/-- C6: in the stale branch of a reclamation tick the Disconnect call is
bounded by the fixed internal 2 second timeout, and the tick outcome does
not depend on the Disconnect outcome at all: whether it fails or times
out, the handle is cleared, the goroutine stops, and no error is
surfaced, a tick having no error output in the first place. -/
theorem c6_reclaim_best_effort (c : Client) (now : Nat)
    (d d2 : Except Unit Unit) (h : Nat) (hc : c.client = some h)
    (hstale : ConnectionTimeout < now - c.lastUsed) :
    cleanupStaleConnectionsTick c now d =
      { state := { c with client := none, stopCleanup := false },
        keepRunning := false, disconnectTimeout := some 2 } ∧
    cleanupStaleConnectionsTick c now d = cleanupStaleConnectionsTick c now d2 := by
  refine ⟨?_, rfl⟩
  simp [cleanupStaleConnectionsTick, hc, hstale, stopCleanupGoroutine_eq]

/-- Witness for c6_reclaim_best_effort: a tick at time 301 on a
connection last used at time 0, with a failing Disconnect. -/
theorem c6_reclaim_best_effort_witness :
    cleanupStaleConnectionsTick
        { uri := "mongodb", client := some 0, lastUsed := 0, stopCleanup := true }
        301 (.error ()) =
      { state := { uri := "mongodb", client := none, lastUsed := 0,
                   stopCleanup := false },
        keepRunning := false, disconnectTimeout := some 2 } ∧
    cleanupStaleConnectionsTick
        { uri := "mongodb", client := some 0, lastUsed := 0, stopCleanup := true }
        301 (.error ()) =
      cleanupStaleConnectionsTick
        { uri := "mongodb", client := some 0, lastUsed := 0, stopCleanup := true }
        301 (.ok ()) :=
  c6_reclaim_best_effort _ 301 _ _ 0 rfl (by decide)

/-- C5: part (a): a reclamation tick that finds a connection set and the
elapsed time beyond the idle timeout disconnects it, clears the handle
and terminates the goroutine instead of keeping it running; part (b): a
connection last used at time u with no further Acquire is reclaimed by
the ticks one check interval apart that follow u, the handle and the
goroutine being gone after the tick at u plus timeout plus one interval;
part (c): an Acquire at time a resets the idle clock, so a tick at any
time up to a plus the timeout, in particular one at the original
deadline, leaves the connection in place and keeps the goroutine
running; finally the six intervals covered in part (b) amount exactly to
timeout plus one interval. -/
theorem c5_idle_reclamation :
    (∀ (c : Client) (now : Nat) (d : Except Unit Unit) (h : Nat),
       c.client = some h → ConnectionTimeout < now - c.lastUsed →
       cleanupStaleConnectionsTick c now d =
         { state := { c with client := none, stopCleanup := false },
           keepRunning := false, disconnectTimeout := some 2 }) ∧
    (∀ (s : String) (h u : Nat),
       runTicks { uri := s, client := some h, lastUsed := u, stopCleanup := true }
         ((List.range 6).map fun i => u + (i + 1) * ConnectionCheckInterval) =
         { uri := s, client := none, lastUsed := u, stopCleanup := false }) ∧
    (∀ (c : Client) (a t : Nat) (k : Except Unit Nat) (d : Except Unit Unit)
       (h : Nat), c.client = some h → t ≤ a + ConnectionTimeout →
       cleanupStaleConnectionsTick (ensureConnection c a k).state t d =
         { state := (ensureConnection c a k).state,
           keepRunning := true, disconnectTimeout := none }) ∧
    ConnectionTimeout + ConnectionCheckInterval = 6 * ConnectionCheckInterval := by
  refine ⟨?_, ?_, ?_, rfl⟩
  · intro c now d h hc hstale
    simp [cleanupStaleConnectionsTick, hc, hstale, stopCleanupGoroutine_eq]
  · intro s h u
    have hsub : ∀ k : Nat, u + k - u = k := fun k => by omega
    simp [runTicks, cleanupStaleConnectionsTick, stopCleanupGoroutine_eq,
      ConnectionTimeout, ConnectionCheckInterval, List.range_succ, hsub]
  · intro c a t k d h hc hfresh
    rw [ensureConnection_fast c a k h hc]
    have hcond : ¬ ((({ c with lastUsed := a } : Client).client.isSome : Prop) ∧
        ConnectionTimeout < t - ({ c with lastUsed := a } : Client).lastUsed) := by
      intro hand
      have h2 := hand.2
      have hproj : ({ c with lastUsed := a } : Client).lastUsed = a := rfl
      rw [hproj] at h2
      simp only [ConnectionTimeout] at h2 hfresh
      omega
    simp [cleanupStaleConnectionsTick, hcond]

/-- Witness for c5_idle_reclamation: a stale tick at time 301; the six
ticks after a connect at time 0; a tick at time 310 after an Acquire at
time 10. -/
theorem c5_idle_reclamation_witness :
    cleanupStaleConnectionsTick
        { uri := "mongodb", client := some 0, lastUsed := 0, stopCleanup := true }
        301 (.error ()) =
      { state := { uri := "mongodb", client := none, lastUsed := 0,
                   stopCleanup := false },
        keepRunning := false, disconnectTimeout := some 2 } ∧
    runTicks { uri := "mongodb", client := some 0, lastUsed := 0, stopCleanup := true }
        ((List.range 6).map fun i => 0 + (i + 1) * ConnectionCheckInterval) =
      { uri := "mongodb", client := none, lastUsed := 0, stopCleanup := false } ∧
    cleanupStaleConnectionsTick
        (ensureConnection
          { uri := "mongodb", client := some 3, lastUsed := 1, stopCleanup := true }
          10 (.ok 9)).state 310 (.ok ()) =
      { state := (ensureConnection
          { uri := "mongodb", client := some 3, lastUsed := 1, stopCleanup := true }
          10 (.ok 9)).state,
        keepRunning := true, disconnectTimeout := none } ∧
    ConnectionTimeout + ConnectionCheckInterval = 6 * ConnectionCheckInterval :=
  ⟨c5_idle_reclamation.1 _ 301 _ 0 rfl (by decide),
   c5_idle_reclamation.2.1 "mongodb" 0 0,
   c5_idle_reclamation.2.2.1 _ 10 310 _ _ 3 rfl (by decide),
   c5_idle_reclamation.2.2.2⟩

/-- C8: for a sequence of Acquire calls at non-decreasing times, the
lastUsed values recorded after the successful calls are non-decreasing,
and every successful Acquire writes lastUsed to its own call time. -/
theorem c8_lastUsed_monotone (c : Client) (calls : List (Nat × Except Unit Nat))
    (hmono : (calls.map Prod.fst).Chain' (· ≤ ·)) :
    (acquireTrace c calls).Chain' (· ≤ ·) ∧
    (∀ (c2 : Client) (t : Nat) (k : Except Unit Nat),
       (ensureConnection c2 t k).err = none →
       (ensureConnection c2 t k).state.lastUsed = t) :=
  ⟨hmono.sublist (acquireTrace_sublist c calls),
   fun c2 t k hs => ensureConnection_success_lastUsed c2 t k hs⟩

/-- Witness for c8_lastUsed_monotone: connect at time 1, refresh at
times 2 and 2, a failing reconnect attempt interleaved. -/
theorem c8_lastUsed_monotone_witness :
    (acquireTrace (NewClient "mongodb").1
        [(1, .ok 0), (2, .ok 7), (2, .error ()), (5, .ok 7)]).Chain' (· ≤ ·) ∧
    (∀ (c2 : Client) (t : Nat) (k : Except Unit Nat),
       (ensureConnection c2 t k).err = none →
       (ensureConnection c2 t k).state.lastUsed = t) :=
  c8_lastUsed_monotone (NewClient "mongodb").1
    [(1, .ok 0), (2, .ok 7), (2, .error ()), (5, .ok 7)]
    (by simp [List.chain'_cons])

/-- Auxiliary: the operator scan of the Go code agrees with the
specification-side predicate on the first character of a key. -/
theorem hasUpdateOperators_iff (u : List (String × BsonValue)) :
    hasUpdateOperators u = true ↔ ∃ kv ∈ u, startsWithDollar kv.1 = true := by
  simp only [hasUpdateOperators, List.any_eq_true, startsWithDollar]

/-- C10: buildUpdate wraps an update document none of whose top-level
keys begins with the dollar character into a document with the single
key $set, while an update document with at least one top-level key
beginning with the dollar character passes through unchanged; both
updateOne and updateMany send exactly this value to the driver. -/
theorem c10_buildUpdate_set_wrapping (u : List (String × BsonValue)) :
    ((∀ kv ∈ u, startsWithDollar kv.1 = false) →
       buildUpdate (some u) = some [("$set", BsonValue.doc u)]) ∧
    ((∃ kv ∈ u, startsWithDollar kv.1 = true) →
       buildUpdate (some u) = some u) := by
  constructor
  · intro hall
    have hfalse : hasUpdateOperators u = false := by
      rw [Bool.eq_false_iff]
      intro htrue
      obtain ⟨kv, hmem, hkv⟩ := (hasUpdateOperators_iff u).mp htrue
      rw [hall kv hmem] at hkv
      exact Bool.false_ne_true hkv
    simp [buildUpdate, hfalse]
  · intro hex
    have htrue : hasUpdateOperators u = true := (hasUpdateOperators_iff u).mpr hex
    simp [buildUpdate, htrue]

/-- Witness for c10_buildUpdate_set_wrapping: a plain field update is
wrapped, an update using the inc operator passes through. -/
theorem c10_buildUpdate_set_wrapping_witness :
    buildUpdate (some [("name", BsonValue.prim "x")]) =
      some [("$set", BsonValue.doc [("name", BsonValue.prim "x")])] ∧
    buildUpdate (some [("$inc", BsonValue.prim "1")]) =
      some [("$inc", BsonValue.prim "1")] :=
  ⟨(c10_buildUpdate_set_wrapping [("name", BsonValue.prim "x")]).1
      (by intro kv hkv; simp at hkv; rw [hkv]; rfl),
   (c10_buildUpdate_set_wrapping [("$inc", BsonValue.prim "1")]).2
      ⟨("$inc", BsonValue.prim "1"), by simp, rfl⟩⟩

deriving instance DecidableEq for Except

/-- Program counter of one goroutine running GetConnection, that is,
ensureConnection followed by the final read of c.client under mu.RLock.
Each constructor names the next atomic lock-protected region of the Go
code the goroutine is about to execute: the unlocked existence check, the
fast-path block under mu, the wait for connectionMu, the double-check
under mu.RLock, the recency refresh under mu, the mongo.Connect call, the
store of the new client under mu, startCleanup under cleanupMu, the
release of connectionMu on the normal or the error return, and the final
handle read of GetConnection. -/
inductive ThreadPC where
  | start
  | fastpath
  | waitLock
  | dcheck
  | refresh
  | connectCall
  | store (h : Nat)
  | startClean
  | unlockOk
  | readHandle
  | unlockErr (e : Unit)
  | done (r : Except Unit (Option Nat))
  deriving Repr, DecidableEq

/-- Shared state of the interleaving model: the fields of the Client
struct touched by ensureConnection, the creation lock bit of
connectionMu, whether a cleanup goroutine exists, and a count of the
mongo.Connect invocations performed so far. The uri is constant during
the scenario and omitted. -/
structure GState where
  client : Option Nat
  lastUsed : Nat
  creationLocked : Bool
  cleanupRunning : Bool
  connectCount : Nat
  deriving Repr, DecidableEq

/-- One atomic step of one goroutine of the interleaving model. The
oracle gives the outcome of the k-th mongo.Connect invocation, and now
is the scenario time used for lastUsed updates. The four indices are the
shared state and program counter before and after the step. -/
inductive TStep (oracle : Nat → Except Unit Nat) (now : Nat) :
    GState → ThreadPC → GState → ThreadPC → Prop where
  | startSome (g : GState) (h : Nat) : g.client = some h →
      TStep oracle now g .start g .fastpath
  | startNone (g : GState) : g.client = none →
      TStep oracle now g .start g .waitLock
  | fastSome (g : GState) (h : Nat) : g.client = some h →
      TStep oracle now g .fastpath { g with lastUsed := now } .readHandle
  | fastNone (g : GState) : g.client = none →
      TStep oracle now g .fastpath g .waitLock
  | acquireLock (g : GState) : g.creationLocked = false →
      TStep oracle now g .waitLock { g with creationLocked := true } .dcheck
  | dcheckSome (g : GState) (h : Nat) : g.client = some h →
      TStep oracle now g .dcheck g .refresh
  | dcheckNone (g : GState) : g.client = none →
      TStep oracle now g .dcheck g .connectCall
  | refreshStep (g : GState) :
      TStep oracle now g .refresh { g with lastUsed := now } .unlockOk
  | connectOk (g : GState) (h : Nat) : oracle g.connectCount = .ok h →
      TStep oracle now g .connectCall
        { g with connectCount := g.connectCount + 1 } (.store h)
  | connectErr (g : GState) (e : Unit) : oracle g.connectCount = .error e →
      TStep oracle now g .connectCall
        { g with connectCount := g.connectCount + 1 } (.unlockErr e)
  | storeStep (g : GState) (h : Nat) :
      TStep oracle now g (.store h)
        { g with client := some h, lastUsed := now } .startClean
  | startCleanStep (g : GState) :
      TStep oracle now g .startClean { g with cleanupRunning := true } .unlockOk
  | unlockOkStep (g : GState) :
      TStep oracle now g .unlockOk { g with creationLocked := false } .readHandle
  | unlockErrStep (g : GState) (e : Unit) :
      TStep oracle now g (.unlockErr e)
        { g with creationLocked := false } (.done (.error e))
  | readStep (g : GState) :
      TStep oracle now g .readHandle g (.done (.ok g.client))

/-- Configuration of the interleaving model: the shared state together
with the program counter of each of the n goroutines. -/
structure Config (n : Nat) where
  g : GState
  th : Fin n → ThreadPC

/-- One interleaving step: some goroutine i performs one atomic step
while all other goroutines stand still. -/
def Step (oracle : Nat → Except Unit Nat) (now : Nat) {n : Nat}
    (c c2 : Config n) : Prop :=
  ∃ (i : Fin n) (pc2 : ThreadPC),
    TStep oracle now c.g (c.th i) c2.g pc2 ∧
    c2.th = Function.update c.th i pc2

/-- Reachability in the interleaving model. -/
def Reaches (oracle : Nat → Except Unit Nat) (now : Nat) {n : Nat}
    (c c2 : Config n) : Prop :=
  Relation.ReflTransGen (Step oracle now) c c2

/-- The fresh manager: no connection, no lock held, no cleanup goroutine,
no connect invocation yet, and every goroutine about to start. -/
def initConfig (n : Nat) : Config n :=
  { g := { client := none, lastUsed := 0, creationLocked := false,
           cleanupRunning := false, connectCount := 0 },
    th := fun _ => .start }

/-- Connect oracle of the success scenario: the k-th mongo.Connect
invocation succeeds and yields the fresh driver client k. -/
def oracleOk : Nat → Except Unit Nat := fun k => .ok k

/-- Connect oracle of the failure scenario: every mongo.Connect
invocation fails. -/
def oracleFail : Nat → Except Unit Nat := fun _ => .error ()

/-- Goroutine states in which connectionMu is held. -/
def holdsLock : ThreadPC → Bool
  | .dcheck => true
  | .refresh => true
  | .connectCall => true
  | .store _ => true
  | .startClean => true
  | .unlockOk => true
  | .unlockErr _ => true
  | _ => false

/-- Mutual exclusion of the creation section: at most one goroutine is
inside it, and while one is, the lock bit is set. -/
structure MutexInv {n : Nat} (c : Config n) : Prop where
  unique : ∀ i j : Fin n,
    holdsLock (c.th i) = true → holdsLock (c.th j) = true → i = j
  lockedOf : ∀ i : Fin n,
    holdsLock (c.th i) = true → c.g.creationLocked = true

/-- Auxiliary: a step of a goroutine whose lock-holding status does not
change, with the lock bit untouched, preserves mutual exclusion. -/
theorem mutexInv_transfer {n : Nat} {c c2 : Config n} {i : Fin n}
    {pc2 : ThreadPC} (hinv : MutexInv c)
    (hth : ∀ j, c2.th j = if j = i then pc2 else c.th j)
    (hsame : holdsLock pc2 = holdsLock (c.th i))
    (hlock : c2.g.creationLocked = c.g.creationLocked) : MutexInv c2 := by
  constructor
  · intro a b ha hb
    rw [hth a] at ha
    rw [hth b] at hb
    by_cases hA : a = i
    · by_cases hB : b = i
      · rw [hA, hB]
      · rw [if_pos hA, hsame] at ha
        rw [if_neg hB] at hb
        rw [hA]
        exact hinv.unique i b ha hb
    · by_cases hB : b = i
      · rw [if_neg hA] at ha
        rw [if_pos hB, hsame] at hb
        rw [hB]
        exact hinv.unique a i ha hb
      · rw [if_neg hA] at ha
        rw [if_neg hB] at hb
        exact hinv.unique a b ha hb
  · intro a ha
    rw [hth a] at ha
    rw [hlock]
    by_cases hA : a = i
    · rw [if_pos hA, hsame] at ha
      exact hinv.lockedOf i ha
    · rw [if_neg hA] at ha
      exact hinv.lockedOf a ha

/-- Auxiliary: the goroutine holding the creation lock leaving the
creation section preserves mutual exclusion, whatever the new lock bit,
since afterwards nobody is inside it. -/
theorem mutexInv_release {n : Nat} {c c2 : Config n} {i : Fin n}
    {pc2 : ThreadPC} (hinv : MutexInv c)
    (hth : ∀ j, c2.th j = if j = i then pc2 else c.th j)
    (hold : holdsLock (c.th i) = true)
    (hnew : holdsLock pc2 = false) : MutexInv c2 := by
  have hnone : ∀ j, holdsLock (c2.th j) = false := by
    intro j
    rw [hth j]
    by_cases hJ : j = i
    · rw [if_pos hJ]
      exact hnew
    · rw [if_neg hJ]
      by_cases hj2 : holdsLock (c.th j) = true
      · exact absurd (hinv.unique j i hj2 hold) hJ
      · simpa using hj2
  constructor
  · intro a b ha hb
    rw [hnone a] at ha
    exact absurd ha (by decide)
  · intro a ha
    rw [hnone a] at ha
    exact absurd ha (by decide)

/-- Auxiliary: a goroutine entering the creation section while the lock
bit is clear becomes the unique holder. -/
theorem mutexInv_acquire {n : Nat} {c c2 : Config n} {i : Fin n}
    {pc2 : ThreadPC} (hinv : MutexInv c)
    (hth : ∀ j, c2.th j = if j = i then pc2 else c.th j)
    (hfree : c.g.creationLocked = false)
    (hlock2 : c2.g.creationLocked = true) : MutexInv c2 := by
  have hnone : ∀ j, holdsLock (c.th j) = false := by
    intro j
    by_cases hj : holdsLock (c.th j) = true
    · rw [hinv.lockedOf j hj] at hfree
      exact absurd hfree (by decide)
    · simpa using hj
  constructor
  · intro a b ha hb
    rw [hth a] at ha
    rw [hth b] at hb
    by_cases hA : a = i
    · by_cases hB : b = i
      · rw [hA, hB]
      · rw [if_neg hB, hnone b] at hb
        exact absurd hb (by decide)
    · rw [if_neg hA, hnone a] at ha
      exact absurd ha (by decide)
  · intro a _
    exact hlock2

/-- Auxiliary: every interleaving step preserves mutual exclusion of the
creation section, whatever the connect oracle. -/
theorem mutexInv_step {n : Nat} {oracle : Nat → Except Unit Nat} {now : Nat}
    {c c2 : Config n} (hinv : MutexInv c) (hstep : Step oracle now c c2) :
    MutexInv c2 := by
  obtain ⟨i, pc2, htstep, hth⟩ := hstep
  have hth2 : ∀ j, c2.th j = if j = i then pc2 else c.th j := by
    intro j
    rw [hth, Function.update_apply]
  rcases c with ⟨g, th⟩
  rcases c2 with ⟨g2, th2⟩
  dsimp only at htstep hth2
  generalize hpc : th i = pcOld at htstep
  cases htstep with
  | startSome h hg => exact mutexInv_transfer hinv hth2 (by dsimp only; rw [hpc]; rfl) rfl
  | startNone hg => exact mutexInv_transfer hinv hth2 (by dsimp only; rw [hpc]; rfl) rfl
  | fastSome h hg => exact mutexInv_transfer hinv hth2 (by dsimp only; rw [hpc]; rfl) rfl
  | fastNone hg => exact mutexInv_transfer hinv hth2 (by dsimp only; rw [hpc]; rfl) rfl
  | acquireLock hfree => exact mutexInv_acquire hinv hth2 hfree rfl
  | dcheckSome h hg => exact mutexInv_transfer hinv hth2 (by dsimp only; rw [hpc]; rfl) rfl
  | dcheckNone hg => exact mutexInv_transfer hinv hth2 (by dsimp only; rw [hpc]; rfl) rfl
  | refreshStep => exact mutexInv_transfer hinv hth2 (by dsimp only; rw [hpc]; rfl) rfl
  | connectOk h hor => exact mutexInv_transfer hinv hth2 (by dsimp only; rw [hpc]; rfl) rfl
  | connectErr e hor => exact mutexInv_transfer hinv hth2 (by dsimp only; rw [hpc]; rfl) rfl
  | storeStep h => exact mutexInv_transfer hinv hth2 (by dsimp only; rw [hpc]; rfl) rfl
  | startCleanStep => exact mutexInv_transfer hinv hth2 (by dsimp only; rw [hpc]; rfl) rfl
  | unlockOkStep => exact mutexInv_release hinv hth2 (by dsimp only; rw [hpc]; rfl) rfl
  | unlockErrStep e => exact mutexInv_release hinv hth2 (by dsimp only; rw [hpc]; rfl) rfl
  | readStep => exact mutexInv_transfer hinv hth2 (by dsimp only; rw [hpc]; rfl) rfl

/-- Auxiliary: the fresh manager satisfies mutual exclusion. -/
theorem mutexInv_init (n : Nat) : MutexInv (initConfig n) := by
  constructor
  · intro a b ha _
    exact absurd ha (by simp [initConfig, holdsLock])
  · intro a ha
    exact absurd ha (by simp [initConfig, holdsLock])

/-- Auxiliary: mutual exclusion holds in every reachable configuration. -/
theorem mutexInv_reaches {n : Nat} {oracle : Nat → Except Unit Nat}
    {now : Nat} {c : Config n}
    (hr : Reaches oracle now (initConfig n) c) : MutexInv c := by
  induction hr with
  | refl => exact mutexInv_init n
  | tail _ hstep ih => exact mutexInv_step ih hstep

/-- Invariant of the success scenario (connect oracle oracleOk): the
stored client can only be the handle 0 produced by the first
mongo.Connect invocation; the connect count is 0 until the single
connect happens and 1 from then on; every goroutine past the
double-check has seen the stored client; every finished goroutine
returned the stored handle; no goroutine is ever on the error return
path. -/
structure OkInv {n : Nat} (c : Config n) : Prop where
  clientZero : c.g.client = none ∨ c.g.client = some 0
  storeInv : ∀ i h, c.th i = ThreadPC.store h → h = 0 ∧ c.g.client = none
  connectInv : ∀ i, c.th i = ThreadPC.connectCall → c.g.client = none
  countZero : c.g.client = none → (∀ i h, c.th i ≠ ThreadPC.store h) →
    c.g.connectCount = 0
  countOneClient : c.g.client = some 0 → c.g.connectCount = 1
  countOneStore : ∀ i h, c.th i = ThreadPC.store h → c.g.connectCount = 1
  refreshSome : ∀ i, c.th i = ThreadPC.refresh → c.g.client = some 0
  startCleanSome : ∀ i, c.th i = ThreadPC.startClean → c.g.client = some 0
  unlockSome : ∀ i, c.th i = ThreadPC.unlockOk → c.g.client = some 0
  readSome : ∀ i, c.th i = ThreadPC.readHandle → c.g.client = some 0
  doneInv : ∀ i r, c.th i = ThreadPC.done r →
    r = Except.ok (some 0) ∧ c.g.client = some 0
  noErrPC : ∀ i e, c.th i ≠ ThreadPC.unlockErr e

/-- Auxiliary: transfer of the success invariant across a step that
leaves client and connect count unchanged and whose source state is not
a pending store; obligations are stated per shape of the new program
counter. -/
theorem okInv_update {n : Nat} {g g2 : GState} {th th2 : Fin n → ThreadPC}
    {i : Fin n} {pc2 : ThreadPC}
    (hinv : OkInv ⟨g, th⟩)
    (hth2 : ∀ j, th2 j = if j = i then pc2 else th j)
    (hcl : g2.client = g.client)
    (hcnt : g2.connectCount = g.connectCount)
    (hnotstore : ∀ h, th i ≠ ThreadPC.store h)
    (hpcStore : ∀ h, pc2 ≠ ThreadPC.store h)
    (hpcErr : ∀ e, pc2 ≠ ThreadPC.unlockErr e)
    (hpcConnect : pc2 = ThreadPC.connectCall → g.client = none)
    (hpcRefresh : pc2 = ThreadPC.refresh → g.client = some 0)
    (hpcStartClean : pc2 = ThreadPC.startClean → g.client = some 0)
    (hpcUnlock : pc2 = ThreadPC.unlockOk → g.client = some 0)
    (hpcRead : pc2 = ThreadPC.readHandle → g.client = some 0)
    (hpcDone : ∀ r, pc2 = ThreadPC.done r →
      r = Except.ok (some 0) ∧ g.client = some 0) :
    OkInv ⟨g2, th2⟩ := by
  constructor
  · show g2.client = none ∨ g2.client = some 0
    rw [hcl]
    exact hinv.clientZero
  · intro j h hj
    replace hj : th2 j = ThreadPC.store h := hj
    rw [hth2 j] at hj
    by_cases hJ : j = i
    · rw [if_pos hJ] at hj
      exact absurd hj (hpcStore h)
    · rw [if_neg hJ] at hj
      obtain ⟨h1, h2⟩ := hinv.storeInv j h hj
      exact ⟨h1, by rw [hcl]; exact h2⟩
  · intro j hj
    replace hj : th2 j = ThreadPC.connectCall := hj
    rw [hth2 j] at hj
    show g2.client = none
    rw [hcl]
    by_cases hJ : j = i
    · rw [if_pos hJ] at hj
      exact hpcConnect hj
    · rw [if_neg hJ] at hj
      exact hinv.connectInv j hj
  · intro hnone hns
    replace hnone : g2.client = none := hnone
    show g2.connectCount = 0
    rw [hcnt]
    refine hinv.countZero (by rw [← hcl]; exact hnone) ?_
    intro j h hj
    by_cases hJ : j = i
    · rw [hJ] at hj
      exact hnotstore h hj
    · exact hns j h
        (by show th2 j = ThreadPC.store h; rw [hth2 j, if_neg hJ]; exact hj)
  · intro hsome
    replace hsome : g2.client = some 0 := hsome
    show g2.connectCount = 1
    rw [hcnt]
    exact hinv.countOneClient (by rw [← hcl]; exact hsome)
  · intro j h hj
    replace hj : th2 j = ThreadPC.store h := hj
    rw [hth2 j] at hj
    show g2.connectCount = 1
    rw [hcnt]
    by_cases hJ : j = i
    · rw [if_pos hJ] at hj
      exact absurd hj (hpcStore h)
    · rw [if_neg hJ] at hj
      exact hinv.countOneStore j h hj
  · intro j hj
    replace hj : th2 j = ThreadPC.refresh := hj
    rw [hth2 j] at hj
    show g2.client = some 0
    rw [hcl]
    by_cases hJ : j = i
    · rw [if_pos hJ] at hj
      exact hpcRefresh hj
    · rw [if_neg hJ] at hj
      exact hinv.refreshSome j hj
  · intro j hj
    replace hj : th2 j = ThreadPC.startClean := hj
    rw [hth2 j] at hj
    show g2.client = some 0
    rw [hcl]
    by_cases hJ : j = i
    · rw [if_pos hJ] at hj
      exact hpcStartClean hj
    · rw [if_neg hJ] at hj
      exact hinv.startCleanSome j hj
  · intro j hj
    replace hj : th2 j = ThreadPC.unlockOk := hj
    rw [hth2 j] at hj
    show g2.client = some 0
    rw [hcl]
    by_cases hJ : j = i
    · rw [if_pos hJ] at hj
      exact hpcUnlock hj
    · rw [if_neg hJ] at hj
      exact hinv.unlockSome j hj
  · intro j hj
    replace hj : th2 j = ThreadPC.readHandle := hj
    rw [hth2 j] at hj
    show g2.client = some 0
    rw [hcl]
    by_cases hJ : j = i
    · rw [if_pos hJ] at hj
      exact hpcRead hj
    · rw [if_neg hJ] at hj
      exact hinv.readSome j hj
  · intro j r hj
    replace hj : th2 j = ThreadPC.done r := hj
    rw [hth2 j] at hj
    by_cases hJ : j = i
    · rw [if_pos hJ] at hj
      obtain ⟨h1, h2⟩ := hpcDone r hj
      exact ⟨h1, by rw [hcl]; exact h2⟩
    · rw [if_neg hJ] at hj
      obtain ⟨h1, h2⟩ := hinv.doneInv j r hj
      exact ⟨h1, by rw [hcl]; exact h2⟩
  · intro j e hj
    replace hj : th2 j = ThreadPC.unlockErr e := hj
    rw [hth2 j] at hj
    by_cases hJ : j = i
    · rw [if_pos hJ] at hj
      exact hpcErr e hj
    · rw [if_neg hJ] at hj
      exact hinv.noErrPC j e hj

/-- Auxiliary: under the success oracle every interleaving step
preserves the success invariant, mutual exclusion given. -/
theorem okInv_step {n : Nat} {now : Nat} {c c2 : Config n}
    (hmx : MutexInv c) (hinv : OkInv c) (hstep : Step oracleOk now c c2) :
    OkInv c2 := by
  obtain ⟨i, pc2, htstep, hth⟩ := hstep
  have hth2 : ∀ j, c2.th j = if j = i then pc2 else c.th j := by
    intro j
    rw [hth, Function.update_apply]
  rcases c with ⟨g, th⟩
  rcases c2 with ⟨g2, th2⟩
  dsimp only at htstep hth2 ⊢
  have hCZ : g.client = none ∨ g.client = some 0 := hinv.clientZero
  have hSI : ∀ j h, th j = ThreadPC.store h → h = 0 ∧ g.client = none :=
    hinv.storeInv
  have hCI : ∀ j, th j = ThreadPC.connectCall → g.client = none :=
    hinv.connectInv
  have hC0 : g.client = none → (∀ j h, th j ≠ ThreadPC.store h) →
      g.connectCount = 0 := hinv.countZero
  have hC1S : ∀ j h, th j = ThreadPC.store h → g.connectCount = 1 :=
    hinv.countOneStore
  have hRS : ∀ j, th j = ThreadPC.refresh → g.client = some 0 :=
    hinv.refreshSome
  have hSC : ∀ j, th j = ThreadPC.startClean → g.client = some 0 :=
    hinv.startCleanSome
  have hUS : ∀ j, th j = ThreadPC.unlockOk → g.client = some 0 :=
    hinv.unlockSome
  have hRdS : ∀ j, th j = ThreadPC.readHandle → g.client = some 0 :=
    hinv.readSome
  have hDI : ∀ j r, th j = ThreadPC.done r →
      r = Except.ok (some 0) ∧ g.client = some 0 := hinv.doneInv
  have hNE : ∀ j e, th j ≠ ThreadPC.unlockErr e := hinv.noErrPC
  have hMU : ∀ a b, holdsLock (th a) = true → holdsLock (th b) = true →
      a = b := hmx.unique
  generalize hpc : th i = pcOld at htstep
  cases htstep with
  | startSome h hg =>
    exact okInv_update hinv hth2 rfl rfl
      (by intro h2 hj; rw [hpc] at hj; simp at hj)
      (by intro h2 hj; simp at hj)
      (by intro e hj; simp at hj)
      (by intro hj; simp at hj)
      (by intro hj; simp at hj)
      (by intro hj; simp at hj)
      (by intro hj; simp at hj)
      (by intro hj; simp at hj)
      (by intro r hj; simp at hj)
  | startNone hg =>
    exact okInv_update hinv hth2 rfl rfl
      (by intro h2 hj; rw [hpc] at hj; simp at hj)
      (by intro h2 hj; simp at hj)
      (by intro e hj; simp at hj)
      (by intro hj; simp at hj)
      (by intro hj; simp at hj)
      (by intro hj; simp at hj)
      (by intro hj; simp at hj)
      (by intro hj; simp at hj)
      (by intro r hj; simp at hj)
  | fastSome h hg =>
    exact okInv_update hinv hth2 rfl rfl
      (by intro h2 hj; rw [hpc] at hj; simp at hj)
      (by intro h2 hj; simp at hj)
      (by intro e hj; simp at hj)
      (by intro hj; simp at hj)
      (by intro hj; simp at hj)
      (by intro hj; simp at hj)
      (by intro hj; simp at hj)
      (by intro _
          rcases hCZ with hn | hs
          · rw [hn] at hg; simp at hg
          · exact hs)
      (by intro r hj; simp at hj)
  | fastNone hg =>
    exact okInv_update hinv hth2 rfl rfl
      (by intro h2 hj; rw [hpc] at hj; simp at hj)
      (by intro h2 hj; simp at hj)
      (by intro e hj; simp at hj)
      (by intro hj; simp at hj)
      (by intro hj; simp at hj)
      (by intro hj; simp at hj)
      (by intro hj; simp at hj)
      (by intro hj; simp at hj)
      (by intro r hj; simp at hj)
  | acquireLock hfree =>
    exact okInv_update hinv hth2 rfl rfl
      (by intro h2 hj; rw [hpc] at hj; simp at hj)
      (by intro h2 hj; simp at hj)
      (by intro e hj; simp at hj)
      (by intro hj; simp at hj)
      (by intro hj; simp at hj)
      (by intro hj; simp at hj)
      (by intro hj; simp at hj)
      (by intro hj; simp at hj)
      (by intro r hj; simp at hj)
  | dcheckSome h hg =>
    exact okInv_update hinv hth2 rfl rfl
      (by intro h2 hj; rw [hpc] at hj; simp at hj)
      (by intro h2 hj; simp at hj)
      (by intro e hj; simp at hj)
      (by intro hj; simp at hj)
      (by intro _
          rcases hCZ with hn | hs
          · rw [hn] at hg; simp at hg
          · exact hs)
      (by intro hj; simp at hj)
      (by intro hj; simp at hj)
      (by intro hj; simp at hj)
      (by intro r hj; simp at hj)
  | dcheckNone hg =>
    exact okInv_update hinv hth2 rfl rfl
      (by intro h2 hj; rw [hpc] at hj; simp at hj)
      (by intro h2 hj; simp at hj)
      (by intro e hj; simp at hj)
      (by intro _; exact hg)
      (by intro hj; simp at hj)
      (by intro hj; simp at hj)
      (by intro hj; simp at hj)
      (by intro hj; simp at hj)
      (by intro r hj; simp at hj)
  | refreshStep =>
    exact okInv_update hinv hth2 rfl rfl
      (by intro h2 hj; rw [hpc] at hj; simp at hj)
      (by intro h2 hj; simp at hj)
      (by intro e hj; simp at hj)
      (by intro hj; simp at hj)
      (by intro hj; simp at hj)
      (by intro hj; simp at hj)
      (by intro _; exact hRS i hpc)
      (by intro hj; simp at hj)
      (by intro r hj; simp at hj)
  | startCleanStep =>
    exact okInv_update hinv hth2 rfl rfl
      (by intro h2 hj; rw [hpc] at hj; simp at hj)
      (by intro h2 hj; simp at hj)
      (by intro e hj; simp at hj)
      (by intro hj; simp at hj)
      (by intro hj; simp at hj)
      (by intro hj; simp at hj)
      (by intro _; exact hSC i hpc)
      (by intro hj; simp at hj)
      (by intro r hj; simp at hj)
  | unlockOkStep =>
    exact okInv_update hinv hth2 rfl rfl
      (by intro h2 hj; rw [hpc] at hj; simp at hj)
      (by intro h2 hj; simp at hj)
      (by intro e hj; simp at hj)
      (by intro hj; simp at hj)
      (by intro hj; simp at hj)
      (by intro hj; simp at hj)
      (by intro hj; simp at hj)
      (by intro _; exact hUS i hpc)
      (by intro r hj; simp at hj)
  | readStep =>
    exact okInv_update hinv hth2 rfl rfl
      (by intro h2 hj; rw [hpc] at hj; simp at hj)
      (by intro h2 hj; simp at hj)
      (by intro e hj; simp at hj)
      (by intro hj; simp at hj)
      (by intro hj; simp at hj)
      (by intro hj; simp at hj)
      (by intro hj; simp at hj)
      (by intro hj; simp at hj)
      (by intro r hj
          have hs := hRdS i hpc
          have hr : Except.ok g.client = r := by injection hj
          refine ⟨?_, hs⟩
          rw [← hr, hs])
  | connectErr e hor =>
    simp [oracleOk] at hor
  | unlockErrStep e =>
    exact absurd hpc (hNE i e)
  | connectOk h hor =>
    have hclient : g.client = none := hCI i hpc
    have hnostore : ∀ j h2, th j ≠ ThreadPC.store h2 := by
      intro j h2 hj
      have hji : j = i := hMU j i (by rw [hj]; rfl) (by rw [hpc]; rfl)
      rw [hji, hpc] at hj
      simp at hj
    have hcount0 : g.connectCount = 0 := hC0 hclient hnostore
    have hh : h = 0 := by
      rw [hcount0] at hor
      simp [oracleOk] at hor
      omega
    subst hh
    constructor
    · exact Or.inl hclient
    · intro j h2 hj
      replace hj : th2 j = ThreadPC.store h2 := hj
      rw [hth2 j] at hj
      by_cases hJ : j = i
      · rw [if_pos hJ] at hj
        have h3 : (0 : Nat) = h2 := by injection hj
        exact ⟨h3.symm, hclient⟩
      · rw [if_neg hJ] at hj
        exact absurd hj (hnostore j h2)
    · intro j hj
      replace hj : th2 j = ThreadPC.connectCall := hj
      rw [hth2 j] at hj
      by_cases hJ : j = i
      · rw [if_pos hJ] at hj
        simp at hj
      · rw [if_neg hJ] at hj
        exact hCI j hj
    · intro hnone hns
      exact ((hns i 0)
        (by show th2 i = ThreadPC.store 0; rw [hth2 i]; simp)).elim
    · intro hsome
      have hs2 : g.client = some 0 := hsome
      rw [hclient] at hs2
      simp at hs2
    · intro j h2 hj
      show g.connectCount + 1 = 1
      rw [hcount0]
    · intro j hj
      replace hj : th2 j = ThreadPC.refresh := hj
      rw [hth2 j] at hj
      by_cases hJ : j = i
      · rw [if_pos hJ] at hj
        simp at hj
      · rw [if_neg hJ] at hj
        have hcontra := hRS j hj
        rw [hclient] at hcontra
        simp at hcontra
    · intro j hj
      replace hj : th2 j = ThreadPC.startClean := hj
      rw [hth2 j] at hj
      by_cases hJ : j = i
      · rw [if_pos hJ] at hj
        simp at hj
      · rw [if_neg hJ] at hj
        have hcontra := hSC j hj
        rw [hclient] at hcontra
        simp at hcontra
    · intro j hj
      replace hj : th2 j = ThreadPC.unlockOk := hj
      rw [hth2 j] at hj
      by_cases hJ : j = i
      · rw [if_pos hJ] at hj
        simp at hj
      · rw [if_neg hJ] at hj
        have hcontra := hUS j hj
        rw [hclient] at hcontra
        simp at hcontra
    · intro j hj
      replace hj : th2 j = ThreadPC.readHandle := hj
      rw [hth2 j] at hj
      by_cases hJ : j = i
      · rw [if_pos hJ] at hj
        simp at hj
      · rw [if_neg hJ] at hj
        have hcontra := hRdS j hj
        rw [hclient] at hcontra
        simp at hcontra
    · intro j r hj
      replace hj : th2 j = ThreadPC.done r := hj
      rw [hth2 j] at hj
      by_cases hJ : j = i
      · rw [if_pos hJ] at hj
        simp at hj
      · rw [if_neg hJ] at hj
        have hcontra := (hDI j r hj).2
        rw [hclient] at hcontra
        simp at hcontra
    · intro j e hj
      replace hj : th2 j = ThreadPC.unlockErr e := hj
      rw [hth2 j] at hj
      by_cases hJ : j = i
      · rw [if_pos hJ] at hj
        simp at hj
      · rw [if_neg hJ] at hj
        exact hNE j e hj
  | storeStep h =>
    obtain ⟨hh0, hclient⟩ := hSI i h hpc
    have hcount1 : g.connectCount = 1 := hC1S i h hpc
    subst hh0
    constructor
    · exact Or.inr rfl
    · intro j h2 hj
      replace hj : th2 j = ThreadPC.store h2 := hj
      rw [hth2 j] at hj
      by_cases hJ : j = i
      · rw [if_pos hJ] at hj
        simp at hj
      · rw [if_neg hJ] at hj
        have hji : j = i := hMU j i (by rw [hj]; rfl) (by rw [hpc]; rfl)
        exact absurd hji hJ
    · intro j hj
      replace hj : th2 j = ThreadPC.connectCall := hj
      rw [hth2 j] at hj
      by_cases hJ : j = i
      · rw [if_pos hJ] at hj
        simp at hj
      · rw [if_neg hJ] at hj
        have hji : j = i := hMU j i (by rw [hj]; rfl) (by rw [hpc]; rfl)
        exact absurd hji hJ
    · intro hnone _
      have hn2 : (some 0 : Option Nat) = none := hnone
      simp at hn2
    · intro _
      show g.connectCount = 1
      exact hcount1
    · intro j h2 hj
      replace hj : th2 j = ThreadPC.store h2 := hj
      rw [hth2 j] at hj
      by_cases hJ : j = i
      · rw [if_pos hJ] at hj
        simp at hj
      · rw [if_neg hJ] at hj
        have hji : j = i := hMU j i (by rw [hj]; rfl) (by rw [hpc]; rfl)
        exact absurd hji hJ
    · intro j _
      exact rfl
    · intro j _
      exact rfl
    · intro j _
      exact rfl
    · intro j _
      exact rfl
    · intro j r hj
      replace hj : th2 j = ThreadPC.done r := hj
      rw [hth2 j] at hj
      by_cases hJ : j = i
      · rw [if_pos hJ] at hj
        simp at hj
      · rw [if_neg hJ] at hj
        exact ⟨(hDI j r hj).1, rfl⟩
    · intro j e hj
      replace hj : th2 j = ThreadPC.unlockErr e := hj
      rw [hth2 j] at hj
      by_cases hJ : j = i
      · rw [if_pos hJ] at hj
        simp at hj
      · rw [if_neg hJ] at hj
        exact hNE j e hj

/-- Auxiliary: the fresh manager satisfies the success invariant. -/
theorem okInv_init (n : Nat) : OkInv (initConfig n) := by
  constructor
  · exact Or.inl rfl
  · intro i h hj
    exact absurd hj (by simp [initConfig])
  · intro i hj
    exact absurd hj (by simp [initConfig])
  · intro _ _
    rfl
  · intro hs
    exact absurd hs (by simp [initConfig])
  · intro i h hj
    exact absurd hj (by simp [initConfig])
  · intro i hj
    exact absurd hj (by simp [initConfig])
  · intro i hj
    exact absurd hj (by simp [initConfig])
  · intro i hj
    exact absurd hj (by simp [initConfig])
  · intro i hj
    exact absurd hj (by simp [initConfig])
  · intro i r hj
    exact absurd hj (by simp [initConfig])
  · intro i e hj
    exact absurd hj (by simp [initConfig])

/-- Auxiliary: the success invariant holds in every configuration
reachable under the success oracle. -/
theorem okInv_reaches {n now : Nat} {c : Config n}
    (hr : Reaches oracleOk now (initConfig n) c) : OkInv c := by
  induction hr with
  | refl => exact okInv_init n
  | tail hr2 hstep ih => exact okInv_step (mutexInv_reaches hr2) ih hstep

/-- C1 (amended): in every reachable configuration the creation mutex
admits at most one goroutine into the creation section (double-check
included), whatever the connect oracle; and when the connect attempts
succeed, any complete interleaved execution of n concurrent
GetConnection calls against a fresh manager performs exactly one
mongo.Connect invocation and every caller finishes with the one stored
handle. When an attempt fails the failing caller alone receives that
error and the state stays disconnected, so later callers re-attempt the
connect, which is why the claim does not hold with a failing connect
(see the counterexample). -/
theorem c1_one_connect_under_contention :
    (∀ (n : Nat) (oracle : Nat → Except Unit Nat) (now : Nat) (c : Config n),
       Reaches oracle now (initConfig n) c →
       ∀ i j : Fin n, holdsLock (c.th i) = true → holdsLock (c.th j) = true →
         i = j) ∧
    (∀ (n now : Nat) (c : Config n), 0 < n →
       Reaches oracleOk now (initConfig n) c →
       (∀ i, ∃ r, c.th i = ThreadPC.done r) →
       c.g.connectCount = 1 ∧
         ∀ i, c.th i = ThreadPC.done (.ok (some 0))) := by
  constructor
  · intro n oracle now c hr i j hi hj
    exact (mutexInv_reaches hr).unique i j hi hj
  · intro n now c hn hr hdone
    have hinv := okInv_reaches hr
    have hall : ∀ i, c.th i = ThreadPC.done (.ok (some 0)) := by
      intro i
      obtain ⟨r, hri⟩ := hdone i
      rw [hri, (hinv.doneInv i r hri).1]
    refine ⟨?_, hall⟩
    obtain ⟨r, hr0⟩ := hdone ⟨0, hn⟩
    exact hinv.countOneClient (hinv.doneInv ⟨0, hn⟩ r hr0).2

/-- Final configuration of the eight step successful execution of one
goroutine against the fresh manager: connected with handle 0, lock
released, cleanup goroutine started, one connect invocation, caller
finished with the handle. -/
def okRunFinal : Config 1 :=
  { g := { client := some 0, lastUsed := 0, creationLocked := false,
           cleanupRunning := true, connectCount := 1 },
    th := fun _ => ThreadPC.done (.ok (some 0)) }

/-- Intermediate configurations of the eight step successful execution
of one goroutine against the fresh manager. -/
def okRun1 : Config 1 :=
  ⟨{ client := none, lastUsed := 0, creationLocked := false,
     cleanupRunning := false, connectCount := 0 }, fun _ => ThreadPC.waitLock⟩

/-- Configuration after the goroutine acquired connectionMu. -/
def okRun2 : Config 1 :=
  ⟨{ client := none, lastUsed := 0, creationLocked := true,
     cleanupRunning := false, connectCount := 0 }, fun _ => ThreadPC.dcheck⟩

/-- Configuration after the double-check found no connection. -/
def okRun3 : Config 1 :=
  ⟨{ client := none, lastUsed := 0, creationLocked := true,
     cleanupRunning := false, connectCount := 0 }, fun _ => ThreadPC.connectCall⟩

/-- Configuration after the successful mongo.Connect invocation. -/
def okRun4 : Config 1 :=
  ⟨{ client := none, lastUsed := 0, creationLocked := true,
     cleanupRunning := false, connectCount := 1 }, fun _ => ThreadPC.store 0⟩

/-- Configuration after the new client was stored. -/
def okRun5 : Config 1 :=
  ⟨{ client := some 0, lastUsed := 0, creationLocked := true,
     cleanupRunning := false, connectCount := 1 }, fun _ => ThreadPC.startClean⟩

/-- Configuration after startCleanup spawned the cleanup goroutine. -/
def okRun6 : Config 1 :=
  ⟨{ client := some 0, lastUsed := 0, creationLocked := true,
     cleanupRunning := true, connectCount := 1 }, fun _ => ThreadPC.unlockOk⟩

/-- Configuration after connectionMu was released. -/
def okRun7 : Config 1 :=
  ⟨{ client := some 0, lastUsed := 0, creationLocked := false,
     cleanupRunning := true, connectCount := 1 }, fun _ => ThreadPC.readHandle⟩

/-- Auxiliary: the execution start, acquire, double-check, connect,
store, start cleanup, unlock, read reaches okRunFinal. -/
theorem okRunFinal_reaches : Reaches oracleOk 0 (initConfig 1) okRunFinal := by
  have s1 : Step oracleOk 0 (initConfig 1) okRun1 :=
    ⟨0, ThreadPC.waitLock, TStep.startNone _ rfl,
      by funext j; fin_cases j <;> rfl⟩
  have s2 : Step oracleOk 0 okRun1 okRun2 :=
    ⟨0, ThreadPC.dcheck, TStep.acquireLock _ rfl,
      by funext j; fin_cases j <;> rfl⟩
  have s3 : Step oracleOk 0 okRun2 okRun3 :=
    ⟨0, ThreadPC.connectCall, TStep.dcheckNone _ rfl,
      by funext j; fin_cases j <;> rfl⟩
  have s4 : Step oracleOk 0 okRun3 okRun4 :=
    ⟨0, ThreadPC.store 0, TStep.connectOk _ 0 rfl,
      by funext j; fin_cases j <;> rfl⟩
  have s5 : Step oracleOk 0 okRun4 okRun5 :=
    ⟨0, ThreadPC.startClean, TStep.storeStep _ 0,
      by funext j; fin_cases j <;> rfl⟩
  have s6 : Step oracleOk 0 okRun5 okRun6 :=
    ⟨0, ThreadPC.unlockOk, TStep.startCleanStep _,
      by funext j; fin_cases j <;> rfl⟩
  have s7 : Step oracleOk 0 okRun6 okRun7 :=
    ⟨0, ThreadPC.readHandle, TStep.unlockOkStep _,
      by funext j; fin_cases j <;> rfl⟩
  have s8 : Step oracleOk 0 okRun7 okRunFinal :=
    ⟨0, ThreadPC.done (.ok (some 0)), TStep.readStep _,
      by funext j; fin_cases j <;> rfl⟩
  exact Relation.ReflTransGen.head s1 (Relation.ReflTransGen.head s2
    (Relation.ReflTransGen.head s3 (Relation.ReflTransGen.head s4
      (Relation.ReflTransGen.head s5 (Relation.ReflTransGen.head s6
        (Relation.ReflTransGen.head s7 (Relation.ReflTransGen.head s8
          Relation.ReflTransGen.refl)))))))

/-- Witness for c1_one_connect_under_contention: at most one holder at
the initial configuration with one goroutine, and the explicit
successful eight step execution, which connects exactly once and whose
caller finishes with the stored handle 0. -/
theorem c1_one_connect_under_contention_witness :
    (∀ i j : Fin 1, holdsLock ((initConfig 1).th i) = true →
       holdsLock ((initConfig 1).th j) = true → i = j) ∧
    (okRunFinal.g.connectCount = 1 ∧
      ∀ i : Fin 1, okRunFinal.th i = ThreadPC.done (.ok (some 0))) :=
  ⟨c1_one_connect_under_contention.1 1 oracleOk 0 (initConfig 1)
      Relation.ReflTransGen.refl,
   c1_one_connect_under_contention.2 1 0 okRunFinal (by decide)
      okRunFinal_reaches (fun i => ⟨.ok (some 0), rfl⟩)⟩

/-- Intermediate configurations of the failing execution with two
goroutines: goroutine 0 runs its whole call first, then goroutine 1. -/
def failRun1 : Config 2 :=
  ⟨{ client := none, lastUsed := 0, creationLocked := false,
     cleanupRunning := false, connectCount := 0 },
   fun j => if j = 0 then ThreadPC.waitLock else ThreadPC.start⟩

/-- Configuration after goroutine 0 acquired connectionMu. -/
def failRun2 : Config 2 :=
  ⟨{ client := none, lastUsed := 0, creationLocked := true,
     cleanupRunning := false, connectCount := 0 },
   fun j => if j = 0 then ThreadPC.dcheck else ThreadPC.start⟩

/-- Configuration after the double-check of goroutine 0 found nothing. -/
def failRun3 : Config 2 :=
  ⟨{ client := none, lastUsed := 0, creationLocked := true,
     cleanupRunning := false, connectCount := 0 },
   fun j => if j = 0 then ThreadPC.connectCall else ThreadPC.start⟩

/-- Configuration after the first mongo.Connect invocation failed. -/
def failRun4 : Config 2 :=
  ⟨{ client := none, lastUsed := 0, creationLocked := true,
     cleanupRunning := false, connectCount := 1 },
   fun j => if j = 0 then ThreadPC.unlockErr () else ThreadPC.start⟩

/-- Configuration after goroutine 0 released the lock and returned its
connect error. -/
def failRun5 : Config 2 :=
  ⟨{ client := none, lastUsed := 0, creationLocked := false,
     cleanupRunning := false, connectCount := 1 },
   fun j => if j = 0 then ThreadPC.done (.error ()) else ThreadPC.start⟩

/-- Configuration after goroutine 1 found no connection either. -/
def failRun6 : Config 2 :=
  ⟨{ client := none, lastUsed := 0, creationLocked := false,
     cleanupRunning := false, connectCount := 1 },
   fun j => if j = 0 then ThreadPC.done (.error ()) else ThreadPC.waitLock⟩

/-- Configuration after goroutine 1 acquired connectionMu in turn. -/
def failRun7 : Config 2 :=
  ⟨{ client := none, lastUsed := 0, creationLocked := true,
     cleanupRunning := false, connectCount := 1 },
   fun j => if j = 0 then ThreadPC.done (.error ()) else ThreadPC.dcheck⟩

/-- Configuration after the double-check of goroutine 1: the client is
still nil, so goroutine 1 heads for its own mongo.Connect call. -/
def failRun8 : Config 2 :=
  ⟨{ client := none, lastUsed := 0, creationLocked := true,
     cleanupRunning := false, connectCount := 1 },
   fun j => if j = 0 then ThreadPC.done (.error ()) else ThreadPC.connectCall⟩

/-- Configuration after the second mongo.Connect invocation failed. -/
def failRun9 : Config 2 :=
  ⟨{ client := none, lastUsed := 0, creationLocked := true,
     cleanupRunning := false, connectCount := 2 },
   fun j => if j = 0 then ThreadPC.done (.error ()) else ThreadPC.unlockErr ()⟩

/-- Final configuration of the failing execution: both goroutines are
finished, each with its own connect error, and mongo.Connect was invoked
twice. -/
def failRunFinal : Config 2 :=
  ⟨{ client := none, lastUsed := 0, creationLocked := false,
     cleanupRunning := false, connectCount := 2 },
   fun _ => ThreadPC.done (.error ())⟩

/-- C1 counterexample: with two concurrent GetConnection calls against a
fresh manager and a failing connect, an interleaved execution exists in
which the underlying connect is invoked twice, each caller receiving its
own connect error from its own attempt; the claim as stated promises
exactly one connect invocation whose single error is shared by all
callers. -/
theorem c1_counterexample_two_connects :
    Reaches oracleFail 0 (initConfig 2) failRunFinal ∧
    failRunFinal.g.connectCount = 2 ∧
    (∀ i : Fin 2, failRunFinal.th i = ThreadPC.done (.error ())) := by
  refine ⟨?_, rfl, fun i => rfl⟩
  have s1 : Step oracleFail 0 (initConfig 2) failRun1 :=
    ⟨0, ThreadPC.waitLock, TStep.startNone _ rfl,
      by funext j; fin_cases j <;> rfl⟩
  have s2 : Step oracleFail 0 failRun1 failRun2 :=
    ⟨0, ThreadPC.dcheck, TStep.acquireLock _ rfl,
      by funext j; fin_cases j <;> rfl⟩
  have s3 : Step oracleFail 0 failRun2 failRun3 :=
    ⟨0, ThreadPC.connectCall, TStep.dcheckNone _ rfl,
      by funext j; fin_cases j <;> rfl⟩
  have s4 : Step oracleFail 0 failRun3 failRun4 :=
    ⟨0, ThreadPC.unlockErr (), TStep.connectErr _ () rfl,
      by funext j; fin_cases j <;> rfl⟩
  have s5 : Step oracleFail 0 failRun4 failRun5 :=
    ⟨0, ThreadPC.done (.error ()), TStep.unlockErrStep _ (),
      by funext j; fin_cases j <;> rfl⟩
  have s6 : Step oracleFail 0 failRun5 failRun6 :=
    ⟨1, ThreadPC.waitLock, TStep.startNone _ rfl,
      by funext j; fin_cases j <;> rfl⟩
  have s7 : Step oracleFail 0 failRun6 failRun7 :=
    ⟨1, ThreadPC.dcheck, TStep.acquireLock _ rfl,
      by funext j; fin_cases j <;> rfl⟩
  have s8 : Step oracleFail 0 failRun7 failRun8 :=
    ⟨1, ThreadPC.connectCall, TStep.dcheckNone _ rfl,
      by funext j; fin_cases j <;> rfl⟩
  have s9 : Step oracleFail 0 failRun8 failRun9 :=
    ⟨1, ThreadPC.unlockErr (), TStep.connectErr _ () rfl,
      by funext j; fin_cases j <;> rfl⟩
  have s10 : Step oracleFail 0 failRun9 failRunFinal :=
    ⟨1, ThreadPC.done (.error ()), TStep.unlockErrStep _ (),
      by funext j; fin_cases j <;> rfl⟩
  exact Relation.ReflTransGen.head s1 (Relation.ReflTransGen.head s2
    (Relation.ReflTransGen.head s3 (Relation.ReflTransGen.head s4
      (Relation.ReflTransGen.head s5 (Relation.ReflTransGen.head s6
        (Relation.ReflTransGen.head s7 (Relation.ReflTransGen.head s8
          (Relation.ReflTransGen.head s9 (Relation.ReflTransGen.head s10
            Relation.ReflTransGen.refl)))))))))
